import Mathlib

/-!
Shallow embedding of the fire-prediction pipeline in `backend/ml_model.py`
(class `FirePredictionModel`), together with proofs of the specification
claims about it.

Modelling conventions:
* Python / numpy floating-point numbers are idealised as rationals `ℚ`;
  the special values produced by pandas arithmetic (`NaN`, `±inf`) are kept
  explicit in the `PFloat` type because `prepare_features` relies on
  `fillna(0)` to absorb the `0/0 = NaN` case.
* A pandas `DataFrame` is a list of rows (association lists from column
  name to value) together with the frame-level column list; column access
  on a missing column raises `KeyError`, which we model with `Except`.
* `pd.Timestamp` values are modelled by a `Timestamp` record carrying the
  derived calendar fields used by the pipeline (`month`, `dayofyear`,
  `hour`, `weekday`) plus an absolute minute count `abs` on the proleptic
  Gregorian calendar, which determines the temporal order and supports
  `+ timedelta(days = w)` as `abs + w * 1440`.
-/

namespace FirePred

/-- Pandas floating-point values: finite rationals plus `±inf` and `NaN`. -/
inductive PFloat where
  | fin (q : ℚ)
  | pinf
  | ninf
  | nan
deriving DecidableEq

/-- Division as pandas performs it elementwise: division by zero yields
`NaN` (for `0/0`) or a signed infinity instead of raising.  Operand shapes
other than finite/finite only arise in this pipeline as `x / NaN` (empty
batch maximum), for which the IEEE result is `NaN`. -/
def PFloat.div : PFloat → PFloat → PFloat
  | .fin a, .fin b =>
      if b = 0 then (if a = 0 then .nan else if 0 < a then .pinf else .ninf)
      else .fin (a / b)
  | _, _ => .nan

/-- Column maximum (`Series.max`): `NaN` on an empty column. -/
def listMaxQ : List ℚ → PFloat
  | [] => .nan
  | x :: xs => .fin (xs.foldl max x)

/-- Model of `pd.Timestamp`: the calendar fields the pipeline extracts,
plus the absolute minute count giving the temporal order. -/
structure Timestamp where
  month : ℕ
  dayOfYear : ℕ
  hour : ℕ
  weekday : ℕ
  abs : ℕ
deriving DecidableEq

instance : Inhabited Timestamp := ⟨⟨1, 1, 0, 0, 0⟩⟩

/-- Leap years in `1..n` of the Gregorian calendar. -/
def leapCount (n : ℕ) : ℕ := n / 4 - n / 100 + n / 400

/-- Gregorian leap-year test. -/
def isLeap (y : ℕ) : Bool := (y % 4 = 0 ∧ y % 100 ≠ 0) ∨ y % 400 = 0

/-- Length of month `m` in year `y`. -/
def daysInMonth (y m : ℕ) : ℕ :=
  if m = 2 then (if isLeap y then 29 else 28)
  else if m = 4 ∨ m = 6 ∨ m = 9 ∨ m = 11 then 30 else 31

/-- Days in year `y` strictly before month `m`. -/
def daysBeforeMonth (y m : ℕ) : ℕ :=
  (List.range (m - 1)).foldl (fun acc k => acc + daysInMonth y (k + 1)) 0

/-- Day count of `y-m-d` since 0001-01-01 (proleptic Gregorian).
0001-01-01 was a Monday, so `ratadie y m d % 7` is the Python
`weekday()` convention (Monday = 0). -/
def ratadie (y m d : ℕ) : ℕ :=
  (y - 1) * 365 + leapCount (y - 1) + daysBeforeMonth y m + (d - 1)

/-- Assemble the timestamp for calendar instant `y-m-d h:mi`. -/
def mkTimestamp (y mo d hh mi : ℕ) : Timestamp :=
  ⟨mo, daysBeforeMonth y mo + d, hh, ratadie y mo d % 7,
    ratadie y mo d * 1440 + hh * 60 + mi⟩

/-- Python string slice `s[:n]`. -/
def strTake (s : String) (n : ℕ) : String := ⟨s.data.take n⟩

/-- Python string slice `s[n:]`. -/
def strDrop (s : String) (n : ℕ) : String := ⟨s.data.drop n⟩

/-- Decimal digit accumulator for `strToNat`. -/
def parseNatAux : List Char → ℕ → Option ℕ
  | [], acc => some acc
  | c :: cs, acc =>
      if c.isDigit then parseNatAux cs (acc * 10 + (c.toNat - 48)) else none

/-- Digits-only string to number (the parse `int()` performs on each
timestamp component). -/
def strToNat (s : String) : Option ℕ :=
  if s.data.isEmpty then none else parseNatAux s.data 0

/-- Model of `pd.to_datetime` on the string `prepare_features` builds:
the pipeline's well-formed shape is `"YYYY-MM-DD HH:MM"`; anything else
fails (and `pd.to_datetime` raising is modelled as `none`). -/
def toDatetime (s : String) : Option Timestamp := do
  guard (s.length = 16)
  let y ← strToNat (strTake s 4)
  guard (strTake (strDrop s 4) 1 = "-")
  let mo ← strToNat (strTake (strDrop s 5) 2)
  guard (strTake (strDrop s 7) 1 = "-")
  let d ← strToNat (strTake (strDrop s 8) 2)
  guard (strTake (strDrop s 10) 1 = " ")
  let hh ← strToNat (strTake (strDrop s 11) 2)
  guard (strTake (strDrop s 13) 1 = ":")
  let mi ← strToNat (strTake (strDrop s 14) 2)
  guard (1 ≤ mo ∧ mo ≤ 12)
  guard (1 ≤ d ∧ d ≤ daysInMonth y mo)
  guard (hh ≤ 23)
  guard (mi ≤ 59)
  pure (mkTimestamp y mo d hh mi)

/-- numpy `round`: ties to even (banker's rounding). -/
def roundHalfEven (q : ℚ) : ℤ :=
  let f := ⌊q⌋
  let r := q - f
  if r < 1 / 2 then f else if 1 / 2 < r then f + 1
  else if f % 2 = 0 then f else f + 1

/-- Python `str` of the float `roundHalfEven q / 10` (one decimal place);
negative inputs rounding to zero print as `"-0.0"`, matching numpy's
negative zero. -/
def tenthOfRound (q : ℚ) : String :=
  (if q < 0 then "-" else "") ++
    toString ((roundHalfEven q).natAbs / 10) ++ "." ++
    toString ((roundHalfEven q).natAbs % 10)

/-- Raw detection record as consumed by `train_model` / `prepare_features`:
the fields of the input mapping that the pipeline reads.  Numeric fields are
idealised as rationals. -/
structure Detection where
  latitude : ℚ
  longitude : ℚ
  brightness : ℚ
  confidence : ℚ
  frp : ℚ
  acq_date : String
  acq_time : String
deriving DecidableEq

instance : Inhabited Detection := ⟨⟨0, 0, 0, 0, 0, "", ""⟩⟩

/-- Line 26-28 of `prepare_features`: the timestamp string built from
`acq_date + ' ' + acq_time[:2] + ':' + acq_time[2:]`, fed to
`pd.to_datetime`. -/
def dtOf (d : Detection) : Option Timestamp :=
  toDatetime (d.acq_date ++ " " ++ strTake d.acq_time 2 ++ ":" ++ strDrop d.acq_time 2)

/-- Cell values of a pandas frame as this pipeline uses them. -/
inductive Val where
  | vfloat (x : PFloat)
  | vstr (s : String)
  | vbool (b : Bool)
  | vtime (t : Timestamp)
deriving DecidableEq

/-- A row of a frame: an association list from column name to value. -/
abbrev Row := List (String × Val)

/-- A pandas DataFrame: the frame-level column list plus the rows.
(The rows constructed in this development always carry exactly the
columns in `cols`.) -/
structure DataFrame where
  cols : List String
  rows : List Row
deriving DecidableEq

/-- Python exceptions that the modelled code can raise. -/
inductive PyErr where
  | keyErr (col : String)
  | typeErr
  | zeroDiv
  | parseErr
deriving DecidableEq

instance {ε α : Type} [DecidableEq ε] [DecidableEq α] : DecidableEq (Except ε α) :=
  fun x y =>
    match x, y with
    | .error e, .error f =>
        if h : e = f then .isTrue (by rw [h]) else .isFalse (by simp [h])
    | .error _, .ok _ => .isFalse (by simp)
    | .ok _, .error _ => .isFalse (by simp)
    | .ok a, .ok b =>
        if h : a = b then .isTrue (by rw [h]) else .isFalse (by simp [h])

/-- Access a column value inside one row. -/
def lookupVal : Row → String → Option Val
  | [], _ => none
  | (k, v) :: r, c => if k = c then some v else lookupVal r c

/-- One cell of `DataFrame.fillna(0)`: `NaN` becomes `0`, everything else
is unchanged. -/
def fillnaVal (v : Val) : Val :=
  match v with
  | .vfloat .nan => .vfloat (.fin 0)
  | x => x

/-- `Series.unique` / first-occurrence deduplication. -/
def uniqueFirst {α : Type} [DecidableEq α] (l : List α) : List α :=
  l.foldl (fun acc x => if x ∈ acc then acc else acc ++ [x]) []

/-- Column-wise loop in the `Option` monad (models a pandas column
operation that raises on the first bad element, e.g. `pd.to_datetime`). -/
def mapO {α β : Type} (f : α → Option β) : List α → Option (List β)
  | [] => some []
  | a :: l => do
      let b ← f a
      let bs ← mapO f l
      pure (b :: bs)

/-- Column-wise loop in the `Except` monad. -/
def mapE {α β : Type} (f : α → Except PyErr β) : List α → Except PyErr (List β)
  | [] => .ok []
  | a :: l => do
      let b ← f a
      let bs ← mapE f l
      pure (b :: bs)

/-- Maximum of a nonempty list of rationals (`Series.max` on a column
without NaNs). -/
def batchMax : List ℚ → ℚ
  | [] => 0
  | x :: xs => xs.foldl max x

/-- `Series.max` of a numeric column: `NaN` when the column is empty. -/
def colMax (l : List ℚ) : PFloat :=
  match l with
  | [] => .nan
  | x :: xs => .fin (batchMax (x :: xs))

/-- Grid-cell id string (lines 37-44): round each coordinate to one
decimal place and render `str(lat_rounded) + '_' + str(lon_rounded)`. -/
def gridIdOf (d : Detection) : String :=
  tenthOfRound (d.latitude * 10) ++ "_" ++ tenthOfRound (d.longitude * 10)

/-- Group key of the `groupby(['grid_id', 'month'])` aggregation. -/
def gridMonthKey (p : Detection × Timestamp) : String × ℕ :=
  (gridIdOf p.1, p.2.month)

/-- Line 47: `groupby(['grid_id', 'month']).size()` as an association list
from group key to group size.  (pandas sorts the group keys; the ordering
is irrelevant to the subsequent merge, which only looks keys up.) -/
def histTable (ps : List (Detection × Timestamp)) : List ((String × ℕ) × ℕ) :=
  (uniqueFirst (ps.map gridMonthKey)).map
    (fun k => (k, ps.countP (fun p => gridMonthKey p = k)))

/-- Lines 48-49: the left merge of the group sizes back onto the frame,
followed by `fillna(0)` for unmatched keys. -/
def histCount (ps : List (Detection × Timestamp)) (p : Detection × Timestamp) : ℕ :=
  (((histTable ps).find? (fun e => e.1 = gridMonthKey p)).map (fun e => e.2)).getD 0

/-- Selected feature columns (lines 62-66, `self.feature_columns`). -/
def featureColumnsList : List String :=
  ["latitude", "longitude", "month", "day_of_year", "hour",
   "brightness_normalized", "confidence_normalized", "frp_normalized",
   "historical_count", "is_weekend", "is_peak_season", "is_post_harvest"]

/-- One output row of `prepare_features` (line 68): the selected feature
columns plus `grid_id`, with the frame-level `fillna(0)` applied to each
cell.  `bMax` / `fMax` are the batch maxima of `brightness` / `frp`, and
`ps` is the whole batch paired with its parsed timestamps (used for the
historical-count merge). -/
def mkFeatRow (hasFrp : Bool) (bMax fMax : PFloat)
    (ps : List (Detection × Timestamp)) (p : Detection × Timestamp) : Row :=
  ([("latitude", .vfloat (.fin p.1.latitude)),
    ("longitude", .vfloat (.fin p.1.longitude)),
    ("month", .vfloat (.fin p.2.month)),
    ("day_of_year", .vfloat (.fin p.2.dayOfYear)),
    ("hour", .vfloat (.fin p.2.hour)),
    ("brightness_normalized", .vfloat (PFloat.div (.fin p.1.brightness) bMax)),
    ("confidence_normalized", .vfloat (PFloat.div (.fin p.1.confidence) (.fin 100))),
    ("frp_normalized",
      if hasFrp then .vfloat (PFloat.div (.fin p.1.frp) fMax) else .vfloat (.fin 0)),
    ("historical_count", .vfloat (.fin (histCount ps p))),
    ("is_weekend", .vbool (decide (5 ≤ p.2.weekday))),
    ("is_peak_season", .vbool (decide (p.2.month ∈ ([3, 4, 5, 10, 11, 12] : List ℕ)))),
    ("is_post_harvest", .vbool (decide (p.2.month ∈ ([4, 5, 11, 12] : List ℕ)))),
    ("grid_id", .vstr (gridIdOf p.1))] : Row).map (fun e => (e.1, fillnaVal e.2))

/-- `prepare_features` (lines 21-68): parse the acquisition timestamps
(raising on failure), derive the temporal / spatial / normalized features,
and return the frame restricted to `feature_columns + ['grid_id']` with
`fillna(0)` applied.  `hasFrp` records whether the input frame has an
`frp` column (line 54's `if 'frp' in features_df.columns`). -/
def prepareFeatures (hasFrp : Bool) (fires : List Detection) : Except PyErr DataFrame :=
  match mapO dtOf fires with
  | none => .error .parseErr
  | some dts =>
      let ps := fires.zip dts
      let bMax := colMax (fires.map (fun d => d.brightness))
      let fMax := colMax (fires.map (fun d => d.frp))
      .ok ⟨featureColumnsList ++ ["grid_id"], ps.map (mkFeatRow hasFrp bMax fMax ps)⟩

/-- Extract the value of column `c` of row `i` of a frame-producing
computation (`none` when the computation failed, the row is out of range
or the column is missing). -/
def colOk (e : Except PyErr DataFrame) (i : ℕ) (c : String) : Option Val :=
  match e with
  | .ok df => (df.rows.get? i).bind (fun r => lookupVal r c)
  | .error _ => none

/-- Bool-level check that an extracted cell is a finite number in `[0,1]`. -/
def isIn01 : Option Val → Bool
  | some (.vfloat (.fin q)) => decide (0 ≤ q) && decide (q ≤ 1)
  | _ => false

/-- Comparison used by `sort_values(c)`: rows are ordered by their value
in column `c`.  Only the datetime column is ever sorted in this pipeline;
on non-datetime values (which pandas would reject) the comparison is
vacuous. -/
def sortValsRow (c : String) (r₁ r₂ : Row) : Bool :=
  match lookupVal r₁ c, lookupVal r₂ c with
  | some (.vtime a), some (.vtime b) => decide (a.abs ≤ b.abs)
  | _, _ => true

/-- Insert into a sorted list, before the first element not below `a`. -/
def orderedIns {α : Type} (le : α → α → Bool) (a : α) : List α → List α
  | [] => [a]
  | b :: l => if le a b then a :: b :: l else b :: orderedIns le a l

/-- Stable insertion sort (the sort key order is all the pipeline relies
on). -/
def insSort {α : Type} (le : α → α → Bool) : List α → List α
  | [] => []
  | a :: l => orderedIns le a (insSort le l)

/-- `df.sort_values(c)` (line 77): raises `KeyError` when `c` is not a
column of the frame. -/
def sortValues (df : DataFrame) (c : String) : Except PyErr DataFrame :=
  if c ∈ df.cols then .ok ⟨df.cols, insSort (sortValsRow c) df.rows⟩
  else .error (.keyErr c)

/-- `grid_data.iloc[i]['datetime']` (line 80). -/
def getTimeAt (rows : List Row) (i : ℕ) : Except PyErr Timestamp :=
  match rows.get? i with
  | none => .error .typeErr
  | some r =>
      match lookupVal r "datetime" with
      | some (.vtime t) => .ok t
      | some _ => .error .typeErr
      | none => .error (.keyErr "datetime")

/-- One element of the boolean mask
`(datetime > current_date) & (datetime <= future_date)` (lines 84-87),
with both bounds given as absolute minutes. -/
def isInWindow (lo hi : ℕ) (r : Row) : Except PyErr Bool :=
  match lookupVal r "datetime" with
  | some (.vtime u) => .ok (decide (lo < u.abs) && decide (u.abs ≤ hi))
  | _ => .error .typeErr

/-- `len(future_fires)` for the window `(lo, hi]` (lines 84-87). -/
def countFutures (rows : List Row) (lo hi : ℕ) : Except PyErr ℕ := do
  let bs ← mapE (isInWindow lo hi) rows
  pure (bs.count true)

/-- Python division of two ints as used in `len(future_fires) / window_days`
(line 92): true division, raising `ZeroDivisionError` on a zero window. -/
def pyDivNat (a w : ℕ) : Except PyErr ℚ :=
  if w = 0 then .error .zeroDiv else .ok ((a : ℚ) / (w : ℚ))

/-- One appended target record (lines 89-93). -/
def targetRowV (gid : Val) (cur : Timestamp) (q : ℚ) : Row :=
  [("grid_id", gid), ("datetime", .vtime cur),
   ("future_fire_probability", .vfloat (.fin q))]

/-- Body of the inner loop of `create_prediction_targets` (lines 79-93)
at index `i` of the sorted per-cell frame. -/
def mkTarget (rows : List Row) (w : ℕ) (gid : Val) (i : ℕ) : Except PyErr Row := do
  let cur ← getTimeAt rows i
  let cnt ← countFutures rows cur.abs (cur.abs + w * 1440)
  let lbl ← pyDivNat cnt w
  pure (targetRowV gid cur (min lbl 1))

/-- Body of the outer loop of `create_prediction_targets` (lines 75-93)
for one grid id: restrict to the cell, sort by datetime, and emit one
target per index in `range(len(grid_data) - 1)`. -/
def processCell (df : DataFrame) (w : ℕ) (gid : Val) : Except PyErr (List Row) := do
  let gdf : DataFrame :=
    ⟨df.cols, df.rows.filter (fun r => lookupVal r "grid_id" = some gid)⟩
  let sorted ← sortValues gdf "datetime"
  mapE (mkTarget sorted.rows w gid) (List.range (sorted.rows.length - 1))

/-- The outer loop over `features_df['grid_id'].unique()`, appending each
cell's target records in order. -/
def loopCells (df : DataFrame) (w : ℕ) : List Val → Except PyErr (List Row)
  | [] => .ok []
  | gid :: rest => do
      let first ← processCell df w gid
      let others ← loopCells df w rest
      pure (first ++ others)

/-- `df[c]` column access: raises `KeyError` when the column is absent. -/
def getColumnVals (df : DataFrame) (c : String) : Except PyErr (List Val) :=
  if c ∈ df.cols then .ok (df.rows.filterMap (fun r => lookupVal r c))
  else .error (.keyErr c)

/-- `pd.DataFrame(target_data)` (line 95): an empty record list produces
an empty frame with no columns. -/
def mkTargetFrame (rows : List Row) : DataFrame :=
  ⟨if rows.isEmpty then [] else ["grid_id", "datetime", "future_fire_probability"],
   rows⟩

/-- `create_prediction_targets` (lines 70-95). -/
def createPredictionTargets (df : DataFrame) (window_days : ℕ) :
    Except PyErr DataFrame := do
  let gcol ← getColumnVals df "grid_id"
  let target_data ← loopCells df window_days (uniqueFirst gcol)
  pure (mkTargetFrame target_data)

/-- Result dictionary of `train_model`: the two error-marker dictionaries
or the success record.  The success payload (model version, mse, r²,
feature importances, lines 114-151) is abstracted to a token: those lines
perform the library regressor fit and, as proved below, are unreachable. -/
inductive TrainOut where
  | errMarker (msg : String)
  | success
deriving DecidableEq

/-- `train_model` (lines 97-151). -/
def trainModel (hasFrp : Bool) (fires : List Detection) : Except PyErr TrainOut :=
  if fires.length < 100 then .ok (.errMarker "Insufficient data for training")
  else do
    let features ← prepareFeatures hasFrp fires
    let targets ← createPredictionTargets features 7
    if targets.rows.length < 50 then
      .ok (.errMarker "Insufficient target data for training")
    else
      .ok .success

/-- Risk-tier mapping from `predict_fire_probability` (lines 186-191). -/
def riskLevel (probability : ℚ) : String :=
  if probability ≥ 7 / 10 then "HIGH"
  else if probability ≥ 4 / 10 then "MEDIUM"
  else "LOW"

/-- A fitted regressor, abstracted to its scoring function. -/
structure FittedModel where
  score : List ℚ → ℚ

/-- A fitted scaler, abstracted to its transform. -/
structure Scaler where
  transform : List ℚ → List ℚ

/-- The mutable state of a `FirePredictionModel` instance — also the
content of the persisted pickle bundle (lines 224-229), which stores the
same four fields. -/
structure ModelState where
  model : Option FittedModel
  scaler : Scaler
  feature_columns : List String
  model_version : String

/-- `load_model` (lines 235-248): replace the in-memory state with the
bundle when the file exists, else catch `FileNotFoundError` and report
`False`. -/
def loadModel (disk : Option ModelState) (st : ModelState) : ModelState × Bool :=
  match disk with
  | none => (st, false)
  | some b => (b, true)

/-- Success payload of `predict_fire_probability` (lines 193-198). -/
structure Prediction where
  probability : ℚ
  risk_level : String
  prediction_days : ℕ
  model_version : String
deriving DecidableEq

/-- Result of `predict_fire_probability`: the error-marker dictionary or
the prediction dictionary. -/
inductive PredResult where
  | err (msg : String)
  | ok (p : Prediction)
deriving DecidableEq

/-- The fixed feature dictionary of `predict_fire_probability`
(lines 162-176), read off per column name (line 179).  Boolean features
become 0/1 as `np.array` coerces them.  A column name outside the fixed
dictionary would raise `KeyError` in the source; the saved column list
never contains one. -/
def defaultFeatureVal (now : Timestamp) (lat lon : ℚ) (c : String) : ℚ :=
  if c = "latitude" then lat
  else if c = "longitude" then lon
  else if c = "month" then (now.month : ℚ)
  else if c = "day_of_year" then (now.dayOfYear : ℚ)
  else if c = "hour" then (now.hour : ℚ)
  else if c = "brightness_normalized" then 0.5
  else if c = "confidence_normalized" then 0.7
  else if c = "frp_normalized" then 0.5
  else if c = "historical_count" then 1.0
  else if c = "is_weekend" then (if 5 ≤ now.weekday then 1 else 0)
  else if c = "is_peak_season" then
    (if now.month ∈ ([3, 4, 5, 10, 11, 12] : List ℕ) then 1 else 0)
  else if c = "is_post_harvest" then
    (if now.month ∈ ([4, 5, 11, 12] : List ℕ) then 1 else 0)
  else 0

/-- `predict_fire_probability` (lines 153-198).  `now` is the wall clock
(`datetime.now()`), `disk` the persisted bundle if any; the returned state
is the possibly-updated `self`. -/
def predictFireProbability (now : Timestamp) (disk : Option ModelState)
    (st : ModelState) (lat lon : ℚ) (prediction_days : ℕ) :
    PredResult × ModelState :=
  let st1 :=
    match st.model with
    | none => (loadModel disk st).1
    | some _ => st
  match st1.model with
  | none => (.err "Model not trained", st1)
  | some m =>
      let X := st1.feature_columns.map (defaultFeatureVal now lat lon)
      let probability := m.score (st1.scaler.transform X)
      (.ok ⟨probability, riskLevel probability, prediction_days, st1.model_version⟩, st1)

/-- Bounding box argument of `generate_grid_predictions`. -/
structure Bounds where
  lat_min : ℚ
  lat_max : ℚ
  lon_min : ℚ
  lon_max : ℚ

/-- `np.arange(start, stop, step)`: `max(⌈(stop - start) / step⌉, 0)`
equally spaced points from `start`. -/
def npArange (start stop step : ℚ) : List ℚ :=
  (List.range (Int.toNat ⌈(stop - start) / step⌉)).map
    (fun i => start + (i : ℚ) * step)

/-- One record of the grid-prediction output (lines 214-218): the lattice
point plus the spread prediction dictionary. -/
structure GridRecord where
  latitude : ℚ
  longitude : ℚ
  probability : ℚ
  risk_level : String
  prediction_days : ℕ
  model_version : String
deriving DecidableEq

/-- Body of the doubly nested loop of `generate_grid_predictions`
(lines 210-218): score one lattice point, keep it only when no error was
returned and the probability is at least 0.3. -/
def gridStep (now : Timestamp) (disk : Option ModelState) (lat lon : ℚ)
    (acc : List GridRecord × ModelState) : List GridRecord × ModelState :=
  let res := predictFireProbability now disk acc.2 lat lon 7
  match res.1 with
  | .err _ => (acc.1, res.2)
  | .ok p =>
      if p.probability ≥ 0.3 then
        (acc.1 ++ [⟨lat, lon, p.probability, p.risk_level,
                    p.prediction_days, p.model_version⟩], res.2)
      else (acc.1, res.2)

/-- `generate_grid_predictions` (lines 200-220). -/
def generateGridPredictions (now : Timestamp) (disk : Option ModelState)
    (st0 : ModelState) (bounds : Bounds) (grid_size : ℚ) :
    List GridRecord × ModelState :=
  let latPts := npArange bounds.lat_min (bounds.lat_max + grid_size) grid_size
  let lonPts := npArange bounds.lon_min (bounds.lon_max + grid_size) grid_size
  latPts.foldl
    (fun acc lat => lonPts.foldl (fun acc2 lon => gridStep now disk lat lon acc2) acc)
    ([], st0)

/-- Probability field of a prediction result, when not an error. -/
def probOf : PredResult → Option ℚ
  | .err _ => none
  | .ok p => some p.probability

/-- Risk-level field of a prediction result, when not an error. -/
def riskOf : PredResult → Option String
  | .err _ => none
  | .ok p => some p.risk_level

/-- Typed input record of the target builder as §4.2 of the spec describes
its contract: a grid-cell id and a timestamp. -/
structure TRec where
  grid : String
  t : Timestamp
deriving DecidableEq

instance : Inhabited TRec := ⟨⟨"", default⟩⟩

/-- Render a typed target-builder input record as a frame row. -/
def toTRow (r : TRec) : Row := [("grid_id", .vstr r.grid), ("datetime", .vtime r.t)]

/-- A well-typed input frame for `create_prediction_targets`. -/
def tgtInput (l : List TRec) : DataFrame := ⟨["grid_id", "datetime"], l.map toTRow⟩

/-- Timestamp order on typed records. -/
def tRecLe (a b : TRec) : Bool := decide (a.t.abs ≤ b.t.abs)

/-- Count from the claim (C3): the number of same-cell records whose
timestamp is strictly after `cur` and at most `cur + w` days. -/
def claimFutureCount (l : List TRec) (g : String) (cur : Timestamp) (w : ℕ) : ℕ :=
  l.countP (fun r =>
    decide (r.grid = g) && decide (cur.abs < r.t.abs) &&
      decide (r.t.abs ≤ cur.abs + w * 1440))

/-- Label from the claim (C3): `min(count / window_days, 1.0)`. -/
def claimLabel (l : List TRec) (g : String) (cur : Timestamp) (w : ℕ) : ℚ :=
  min ((claimFutureCount l g cur w : ℚ) / (w : ℚ)) 1

/-- Target record with a string grid id. -/
def targetRow (g : String) (cur : Timestamp) (q : ℚ) : Row :=
  targetRowV (.vstr g) cur q

/-- The per-cell records sorted by timestamp. -/
def cellSorted (l : List TRec) (g : String) : List TRec :=
  insSort tRecLe (l.filter (fun r => r.grid = g))

/-- Pure form of one cell's target records: one label per sorted record
except the last. -/
def cellLabelRows (l : List TRec) (g : String) (w : ℕ) : List Row :=
  let s := cellSorted l g
  s.dropLast.map (fun r =>
    targetRow g r.t
      (min ((s.countP (fun u =>
          decide (r.t.abs < u.t.abs) && decide (u.t.abs ≤ r.t.abs + w * 1440)) : ℚ)
          / (w : ℚ)) 1))

/-- Pure form of the whole target-record list over a well-typed input. -/
def targetRowsOf (l : List TRec) (w : ℕ) : List Row :=
  (uniqueFirst (l.map (fun r => r.grid))).flatMap (fun g => cellLabelRows l g w)

/-- Pure form of the output frame of the target builder on a well-typed
input. -/
def targetOutput (l : List TRec) (w : ℕ) : DataFrame :=
  mkTargetFrame (targetRowsOf l w)

/-- Sort key of a target record (absolute minutes of its datetime). -/
def rowTimeKey (r : Row) : ℕ :=
  match lookupVal r "datetime" with
  | some (.vtime t) => t.abs
  | _ => 0

/-- Sample detection used in concrete evaluations. -/
def dEx : Detection := ⟨30.1, 75.1, 300, 80, 5, "2023-11-01", "0130"⟩

/-- Sample detection with a confidence above 100 (the NASA FIRMS scale
tops out at 100, but nothing in the code validates that). -/
def dCex : Detection := ⟨30.1, 75.1, 300, 150, 5, "2023-11-01", "0130"⟩

/-- Second sample: same 0.1° cell and month as `dEx`, different day. -/
def dEx2 : Detection := ⟨30.12, 75.08, 310, 70, 6, "2023-11-03", "0200"⟩

/-- Third sample: a different cell and month. -/
def dEx3 : Detection := ⟨28.5, 77.2, 320, 60, 7, "2023-12-01", "0200"⟩

/-- Three-detection demo batch for the historical-count computation. -/
def c5fires : List Detection := [dEx, dEx2, dEx3]

/-- Parsed timestamps of the demo batch. -/
def c5dts : List Timestamp := (mapO dtOf c5fires).getD []

/-- First record of the demo batch with its parsed timestamp. -/
def c5p : Detection × Timestamp := ((c5fires.zip c5dts).get? 0).getD default

/-- Parsed timestamp list of the singleton batch `[dEx]`. -/
def c4dts : List Timestamp := (mapO dtOf [dEx]).getD []

/-- The single record of `[dEx]` with its parsed timestamp. -/
def c4p : Detection × Timestamp := (([dEx].zip c4dts).get? 0).getD default

/-- Parsed timestamps of a batch of 100 identical detections. -/
def c1dts : List Timestamp := (mapO dtOf (List.replicate 100 dEx)).getD []

/-- A sample wall-clock reading (2023-11-01 01:30). -/
def tNow : Timestamp := mkTimestamp 2023 11 1 1 30

/-- Model state with no fitted model in memory. -/
def stNone : ModelState := ⟨none, ⟨fun xs => xs⟩, featureColumnsList, "1.0"⟩

/-- Model state whose fitted regressor scores every point 0.5 and whose
scaler is the identity. -/
def stSome : ModelState := ⟨some ⟨fun xs => 0.5⟩, ⟨fun xs => xs⟩, featureColumnsList, "1.0"⟩

/-- The prediction `stSome` produces (probability 0.5 is tier MEDIUM). -/
def prC9 : Prediction := ⟨0.5, "MEDIUM", 3, "1.0"⟩

/-- A one-point bounding box. -/
def bnds1 : Bounds := ⟨0, 0, 0, 0⟩

/-- The single grid record the one-point sweep produces under `stSome`. -/
def recC8 : GridRecord := ⟨0, 0, 0.5, "MEDIUM", 7, "1.0"⟩

/-- Demo target-builder input: two records in cell `a` one day apart and
one record in cell `b`. -/
def c3l : List TRec :=
  [⟨"a", mkTimestamp 2023 11 1 0 0⟩, ⟨"a", mkTimestamp 2023 11 2 0 0⟩,
   ⟨"b", mkTimestamp 2023 11 1 0 0⟩]

unseal Rat.ofScientific Rat.mul Rat.inv Rat.add Rat.sub in
/-- C6: the risk-tier mapping is a pure, total function of the probability:
`p ≥ 0.7` maps to HIGH, `0.4 ≤ p < 0.7` maps to MEDIUM, everything else to
LOW, and the six sample inputs 0.0, 0.399, 0.4, 0.699, 0.7, 1.0 map to
LOW, LOW, MEDIUM, MEDIUM, HIGH, HIGH. -/
theorem riskLevel_spec (p : ℚ) :
    ((7 / 10 ≤ p → riskLevel p = "HIGH") ∧
      (4 / 10 ≤ p → p < 7 / 10 → riskLevel p = "MEDIUM") ∧
      (p < 4 / 10 → riskLevel p = "LOW")) ∧
    riskLevel 0 = "LOW" ∧ riskLevel 0.399 = "LOW" ∧
    riskLevel 0.4 = "MEDIUM" ∧ riskLevel 0.699 = "MEDIUM" ∧
    riskLevel 0.7 = "HIGH" ∧ riskLevel 1 = "HIGH" := by
  refine ⟨⟨?_, ?_, ?_⟩, by decide, by decide,
    by decide, by decide,
    by decide, by decide⟩
  · intro h; simp [riskLevel, h]
  · intro h₁ h₂
    simp only [riskLevel, ge_iff_le, if_neg (by exact not_le.mpr h₂), if_pos h₁]
  · intro h
    have h₂ : ¬ (7 / 10 ≤ p) := not_le.mpr (lt_trans h (by norm_num))
    simp only [riskLevel, ge_iff_le, if_neg h₂, if_neg (not_le.mpr h)]

/-- Witness for C6 at the concrete probability 1. -/
theorem riskLevel_spec_witness : riskLevel 1 = "HIGH" :=
  (riskLevel_spec 1).1.1 (by norm_num)

/-- Membership after the first-occurrence deduplication fold. -/
theorem mem_foldl_dedup {α : Type} [DecidableEq α] (l : List α) (acc : List α) (a : α) :
    (a ∈ l.foldl (fun acc x => if x ∈ acc then acc else acc ++ [x]) acc) ↔
      a ∈ acc ∨ a ∈ l := by
  induction l generalizing acc with
  | nil => simp
  | cons x xs ih =>
    rw [List.foldl_cons, ih]
    by_cases hx : x ∈ acc
    · rw [if_pos hx]
      simp only [List.mem_cons]
      constructor
      · rintro (h | h)
        · exact Or.inl h
        · exact Or.inr (Or.inr h)
      · rintro (h | h | h)
        · exact Or.inl h
        · exact Or.inl (h ▸ hx)
        · exact Or.inr h
    · rw [if_neg hx]
      simp only [List.mem_append, List.mem_cons, List.mem_singleton]
      tauto

/-- Membership is preserved by first-occurrence deduplication. -/
theorem mem_uniqueFirst {α : Type} [DecidableEq α] (l : List α) (a : α) :
    a ∈ uniqueFirst l ↔ a ∈ l := by
  unfold uniqueFirst
  rw [mem_foldl_dedup]
  simp

/-- Looking a key up in a table whose values are a function of the key
returns the entry for the key. -/
theorem find?_keyTable {α : Type} [DecidableEq α] (u : List α) (c : α → ℕ)
    (k : α) (hk : k ∈ u) :
    (u.map (fun x => (x, c x))).find? (fun e => e.1 = k) = some (k, c k) := by
  induction u with
  | nil => cases hk
  | cons x xs ih =>
    by_cases hkx : x = k
    · subst hkx
      simp [List.find?]
    · rw [List.map_cons, List.find?_cons_of_neg _ (by simp [hkx])]
      refine ih ?_
      rcases List.mem_cons.mp hk with h | h
      · exact absurd h.symm hkx
      · exact h

/-- Feature-row lookup: the normalized-brightness cell. -/
theorem lookup_featRow_brightness (h : Bool) (bM fM : PFloat)
    (ps : List (Detection × Timestamp)) (p : Detection × Timestamp) :
    lookupVal (mkFeatRow h bM fM ps p) "brightness_normalized"
      = some (fillnaVal (.vfloat (PFloat.div (.fin p.1.brightness) bM))) := rfl

/-- Feature-row lookup: the normalized-confidence cell. -/
theorem lookup_featRow_confidence (h : Bool) (bM fM : PFloat)
    (ps : List (Detection × Timestamp)) (p : Detection × Timestamp) :
    lookupVal (mkFeatRow h bM fM ps p) "confidence_normalized"
      = some (fillnaVal (.vfloat (PFloat.div (.fin p.1.confidence) (.fin 100)))) := rfl

/-- Feature-row lookup: the normalized-radiative-power cell. -/
theorem lookup_featRow_frp (h : Bool) (bM fM : PFloat)
    (ps : List (Detection × Timestamp)) (p : Detection × Timestamp) :
    lookupVal (mkFeatRow h bM fM ps p) "frp_normalized"
      = some (fillnaVal (if h then .vfloat (PFloat.div (.fin p.1.frp) fM)
          else .vfloat (.fin 0))) := rfl

/-- Feature-row lookup: the historical-count cell. -/
theorem lookup_featRow_hist (h : Bool) (bM fM : PFloat)
    (ps : List (Detection × Timestamp)) (p : Detection × Timestamp) :
    lookupVal (mkFeatRow h bM fM ps p) "historical_count"
      = some (fillnaVal (.vfloat (.fin (histCount ps p)))) := rfl

/-- Feature-row lookup: the grid-id cell. -/
theorem lookup_featRow_grid (h : Bool) (bM fM : PFloat)
    (ps : List (Detection × Timestamp)) (p : Detection × Timestamp) :
    lookupVal (mkFeatRow h bM fM ps p) "grid_id"
      = some (fillnaVal (.vstr (gridIdOf p.1))) := rfl

/-- Cell access on a successful `prepare_features` run reduces to a lookup
on the constructed feature row. -/
theorem colOk_prepare (h : Bool) {fires : List Detection} {dts : List Timestamp}
    (hp : mapO dtOf fires = some dts) {i : ℕ} {p : Detection × Timestamp}
    (hip : (fires.zip dts).get? i = some p) (c : String) :
    colOk (prepareFeatures h fires) i c =
      lookupVal (mkFeatRow h (colMax (fires.map (fun d => d.brightness)))
        (colMax (fires.map (fun d => d.frp))) (fires.zip dts) p) c := by
  unfold prepareFeatures colOk
  rw [hp]
  dsimp only
  rw [List.get?_map, hip]
  rfl

/-- Normalization by a maximum dominating the raw value lands in `[0,1]`,
with `0/0` resolved to `0` by `fillna`. -/
theorem isIn01_div {b M : ℚ} (hb : 0 ≤ b) (hbM : b ≤ M) :
    isIn01 (some (fillnaVal (.vfloat (PFloat.div (.fin b) (.fin M))))) = true := by
  unfold PFloat.div
  by_cases hM : M = 0
  · have hb0 : b = 0 := le_antisymm (hM ▸ hbM) hb
    simp [hM, hb0, fillnaVal, isIn01]
  · have hMpos : 0 < M := lt_of_le_of_ne (le_trans hb hbM) (Ne.symm hM)
    simp only [if_neg hM, fillnaVal, isIn01]
    rw [Bool.and_eq_true, decide_eq_true_eq, decide_eq_true_eq]
    exact ⟨div_nonneg hb hMpos.le, (div_le_one hMpos).mpr hbM⟩

/-- Folding `max` from `0` over an all-zero list yields `0`. -/
theorem foldl_max_zero {xs : List ℚ} (hxs : ∀ a ∈ xs, a = 0) :
    xs.foldl max 0 = 0 := by
  induction xs with
  | nil => rfl
  | cons a l ih =>
    have ha : a = 0 := hxs a (List.mem_cons_self a l)
    rw [List.foldl_cons, ha, max_self]
    exact ih (fun b hb => hxs b (List.mem_cons_of_mem a hb))

/-- The batch maximum of an all-zero column is `0`. -/
theorem batchMax_all_zero {l : List ℚ} (hl : ∀ a ∈ l, a = 0) : batchMax l = 0 := by
  cases l with
  | nil => rfl
  | cons x xs =>
    have hx : x = 0 := hl x (List.mem_cons_self x xs)
    rw [batchMax, hx]
    exact foldl_max_zero (fun b hb => hl b (List.mem_cons_of_mem x hb))

/-- On a nonempty column `colMax` is the finite batch maximum. -/
theorem colMax_eq {l : List ℚ} (hl : l ≠ []) : colMax l = .fin (batchMax l) := by
  cases l with
  | nil => exact absurd rfl hl
  | cons x xs => rfl

/-- A successful indexed access into a zip forces the left list nonempty. -/
theorem zip_ne_nil_left {α β : Type} {fires : List α} {dts : List β} {i : ℕ}
    {p : α × β} (hip : (fires.zip dts).get? i = some p) : fires ≠ [] := by
  rintro rfl
  simp [List.zip] at hip

/-- C4 (amended): for every detection batch whose timestamps parse, every
produced feature row's normalized brightness and radiative power lie in
`[0,1]` whenever the raw field lies within `[0, batch max]`, and the
normalized confidence lies in `[0,1]` whenever the raw confidence lies in
`[0, 100]` (the divisor is the fixed constant 100, not the batch maximum —
see the counterexample for the claim's original phrasing); when a field's
batch maximum is zero the normalization resolves `0/0` to `0` via
`fillna(0)` rather than raising. -/
theorem prepareFeatures_normalized_bounds (h : Bool) {fires : List Detection}
    {dts : List Timestamp} (hp : mapO dtOf fires = some dts) {i : ℕ}
    {p : Detection × Timestamp} (hip : (fires.zip dts).get? i = some p) :
    (0 ≤ p.1.brightness → p.1.brightness ≤ batchMax (fires.map (fun d => d.brightness)) →
        isIn01 (colOk (prepareFeatures h fires) i "brightness_normalized") = true)
  ∧ (0 ≤ p.1.confidence → p.1.confidence ≤ 100 →
        isIn01 (colOk (prepareFeatures h fires) i "confidence_normalized") = true)
  ∧ (0 ≤ p.1.frp → p.1.frp ≤ batchMax (fires.map (fun d => d.frp)) →
        isIn01 (colOk (prepareFeatures h fires) i "frp_normalized") = true)
  ∧ ((∀ e ∈ fires, e.brightness = 0) →
        colOk (prepareFeatures h fires) i "brightness_normalized" = some (.vfloat (.fin 0)))
  ∧ ((∀ e ∈ fires, e.frp = 0) →
        colOk (prepareFeatures h fires) i "frp_normalized" = some (.vfloat (.fin 0))) := by
  have hfne : fires ≠ [] := zip_ne_nil_left hip
  have hbne : fires.map (fun d => d.brightness) ≠ [] := by
    simpa using hfne
  have hfrne : fires.map (fun d => d.frp) ≠ [] := by
    simpa using hfne
  have hmem : p.1 ∈ fires := (List.of_mem_zip (List.get?_mem hip)).1
  refine ⟨?_, ?_, ?_, ?_, ?_⟩
  · intro hb hbM
    rw [colOk_prepare h hp hip, lookup_featRow_brightness, colMax_eq hbne]
    exact isIn01_div hb hbM
  · intro hc hc100
    rw [colOk_prepare h hp hip, lookup_featRow_confidence]
    exact isIn01_div hc hc100
  · intro hf hfM
    rw [colOk_prepare h hp hip, lookup_featRow_frp, colMax_eq hfrne]
    cases h with
    | true =>
      simpa using isIn01_div hf hfM
    | false =>
      simp [fillnaVal, isIn01]
  · intro hz
    rw [colOk_prepare h hp hip, lookup_featRow_brightness, colMax_eq hbne]
    have hb0 : p.1.brightness = 0 := hz p.1 hmem
    have hM0 : batchMax (fires.map (fun d => d.brightness)) = 0 :=
      batchMax_all_zero (by
        intro a ha
        obtain ⟨d, hd, rfl⟩ := List.mem_map.mp ha
        exact hz d hd)
    rw [hb0, hM0]
    simp [PFloat.div, fillnaVal]
  · intro hz
    rw [colOk_prepare h hp hip, lookup_featRow_frp, colMax_eq hfrne]
    cases h with
    | true =>
      have hf0 : p.1.frp = 0 := hz p.1 hmem
      have hM0 : batchMax (fires.map (fun d => d.frp)) = 0 :=
        batchMax_all_zero (by
          intro a ha
          obtain ⟨d, hd, rfl⟩ := List.mem_map.mp ha
          exact hz d hd)
      rw [hf0, hM0]
      simp [PFloat.div, fillnaVal]
    | false =>
      rfl

unseal Rat.ofScientific Rat.mul Rat.inv Rat.add Rat.sub in
/-- Counterexample to C4 as stated: with the one-detection batch `dCex`
the raw confidence 150 lies within `[0, batch max] = [0, 150]`, yet the
normalized confidence is `150 / 100 = 1.5 ∉ [0,1]`, because the confidence
divisor is the fixed constant 100, not the batch maximum. -/
theorem prepareFeatures_confidence_above_one :
    (0 : ℚ) ≤ dCex.confidence
  ∧ dCex.confidence ≤ batchMax ([dCex].map (fun d => d.confidence))
  ∧ colOk (prepareFeatures true [dCex]) 0 "confidence_normalized"
      = some (.vfloat (.fin (3 / 2)))
  ∧ ¬ ((3 : ℚ) / 2 ≤ 1) := by
  refine ⟨by norm_num [dCex], ?_, ?_, by norm_num⟩
  · decide
  · decide

unseal Rat.ofScientific Rat.mul Rat.inv Rat.add Rat.sub in
set_option maxRecDepth 20000 in
/-- Witness for C4 on the singleton batch `[dEx]`. -/
theorem prepareFeatures_normalized_bounds_witness :
    mapO dtOf [dEx] = some c4dts
  ∧ ([dEx].zip c4dts).get? 0 = some c4p
  ∧ isIn01 (colOk (prepareFeatures true [dEx]) 0 "brightness_normalized") = true
  ∧ isIn01 (colOk (prepareFeatures true [dEx]) 0 "confidence_normalized") = true
  ∧ isIn01 (colOk (prepareFeatures true [dEx]) 0 "frp_normalized") = true := by
  have hp : mapO dtOf [dEx] = some c4dts := by decide
  have hip : ([dEx].zip c4dts).get? 0 = some c4p := by decide
  refine ⟨hp, hip, ?_, ?_, ?_⟩
  · exact (prepareFeatures_normalized_bounds true hp hip).1
      (by decide) (by decide)
  · exact (prepareFeatures_normalized_bounds true hp hip).2.1
      (by decide) (by decide)
  · exact (prepareFeatures_normalized_bounds true hp hip).2.2.1
      (by decide) (by decide)

/-- C5: for every detection batch whose timestamps parse, the
`historical_count` feature of each record equals the number of records in
the entire input batch (the record itself included) whose grid-cell id and
month both equal that record's grid-cell id and month. -/
theorem prepareFeatures_historical_count (h : Bool) {fires : List Detection}
    {dts : List Timestamp} (hp : mapO dtOf fires = some dts) {i : ℕ}
    {p : Detection × Timestamp} (hip : (fires.zip dts).get? i = some p) :
    colOk (prepareFeatures h fires) i "historical_count" =
      some (.vfloat (.fin ((fires.zip dts).countP (fun q =>
        gridIdOf q.1 = gridIdOf p.1 ∧ q.2.month = p.2.month)))) := by
  rw [colOk_prepare h hp hip, lookup_featRow_hist]
  have hmem : p ∈ fires.zip dts := List.get?_mem hip
  have hcount : histCount (fires.zip dts) p =
      (fires.zip dts).countP (fun q =>
        gridIdOf q.1 = gridIdOf p.1 ∧ q.2.month = p.2.month) := by
    unfold histCount histTable
    rw [find?_keyTable _ _ _
      ((mem_uniqueFirst _ _).mpr (List.mem_map_of_mem gridMonthKey hmem))]
    simp only [Option.map_some', Option.getD_some]
    refine List.countP_congr ?_
    intro a _
    simp [gridMonthKey, Prod.ext_iff]
  rw [hcount]
  rfl

unseal Rat.ofScientific Rat.mul Rat.inv Rat.add Rat.sub in
set_option maxRecDepth 20000 in
/-- Witness for C5 on the three-detection batch `c5fires`: the first
record shares cell `30.1_75.1` and month 11 with the second, so its
historical count is 2. -/
theorem prepareFeatures_historical_count_witness :
    mapO dtOf c5fires = some c5dts
  ∧ (c5fires.zip c5dts).get? 0 = some c5p
  ∧ colOk (prepareFeatures true c5fires) 0 "historical_count"
      = some (.vfloat (.fin 2)) := by
  have hp : mapO dtOf c5fires = some c5dts := by decide
  have hip : (c5fires.zip c5dts).get? 0 = some c5p := by decide
  refine ⟨hp, hip, ?_⟩
  rw [prepareFeatures_historical_count true hp hip]
  decide


theorem bind_ok_err {α β : Type} (a : α) (f : α → Except PyErr β) (e : PyErr)
    (h : f a = .error e) : ((Except.ok a : Except PyErr α) >>= f) = .error e := h

theorem bind_err {α β : Type} (m : Except PyErr α) (f : α → Except PyErr β) (e : PyErr)
    (h : m = .error e) : (m >>= f) = .error e := by
  rw [h]
  rfl

theorem mapO_length {α β : Type} (f : α → Option β) :
    ∀ {l : List α} {bs : List β}, mapO f l = some bs → bs.length = l.length := by
  intro l
  induction l with
  | nil =>
    intro bs hb
    simp [mapO] at hb
    simp [hb.symm]
  | cons a t ih =>
    intro bs hb
    unfold mapO at hb
    cases hfa : f a with
    | none => rw [hfa] at hb; simp at hb
    | some b =>
      rw [hfa] at hb
      cases hmt : mapO f t with
      | none => rw [hmt] at hb; simp at hb
      | some bt =>
        rw [hmt] at hb
        simp at hb
        rw [hb.symm]
        simp [List.length_cons, ih hmt]

theorem uniqueFirst_cons {α : Type} [DecidableEq α] (x : α) (xs : List α) :
    ∃ g gs, uniqueFirst (x :: xs) = g :: gs := by
  cases hu : uniqueFirst (x :: xs) with
  | nil =>
    have hxm : x ∈ uniqueFirst (x :: xs) := (mem_uniqueFirst _ _).mpr (List.mem_cons_self x xs)
    rw [hu] at hxm
    cases hxm
  | cons g gs => exact ⟨g, gs, rfl⟩

theorem createTargets_no_datetime {rows : List Row} {v : Val} {vs : List Val}
    (hv : rows.filterMap (fun r => lookupVal r "grid_id") = v :: vs) :
    createPredictionTargets ⟨featureColumnsList ++ ["grid_id"], rows⟩ 7
      = .error (.keyErr "datetime") := by
  obtain ⟨g, gs, hu⟩ := uniqueFirst_cons v vs
  unfold createPredictionTargets getColumnVals
  have hmem : "grid_id" ∈ (⟨featureColumnsList ++ ["grid_id"], rows⟩ : DataFrame).cols := by
    show "grid_id" ∈ featureColumnsList ++ ["grid_id"]
    decide
  rw [if_pos hmem, hv]
  show loopCells ⟨featureColumnsList ++ ["grid_id"], rows⟩ 7 (uniqueFirst (v :: vs)) >>= _
    = Except.error (PyErr.keyErr "datetime")
  rw [hu]
  apply bind_err
  rfl

theorem trainModel_keyErr (h : Bool) {fires : List Detection} {dts : List Timestamp}
    (hlen : 100 ≤ fires.length) (hp : mapO dtOf fires = some dts) :
    trainModel h fires = .error (.keyErr "datetime") := by
  unfold trainModel
  rw [if_neg (by omega)]
  unfold prepareFeatures
  rw [hp]
  dsimp only
  obtain ⟨d0, fr, hf⟩ : ∃ d0 fr, fires = d0 :: fr := by
    cases fires with
    | nil => simp at hlen
    | cons d0 fr => exact ⟨d0, fr, rfl⟩
  obtain ⟨t0, dr, hd⟩ : ∃ t0 dr, dts = t0 :: dr := by
    have hls : dts.length = fires.length := mapO_length dtOf hp
    cases dts with
    | nil => rw [hf] at hls; simp at hls
    | cons t0 dr => exact ⟨t0, dr, rfl⟩
  apply bind_ok_err
  show (createPredictionTargets ⟨featureColumnsList ++ ["grid_id"],
      (fires.zip dts).map (mkFeatRow h (colMax (fires.map (fun d => d.brightness)))
        (colMax (fires.map (fun d => d.frp))) (fires.zip dts))⟩ 7 >>= _)
    = Except.error (PyErr.keyErr "datetime")
  apply bind_err
  apply createTargets_no_datetime
  rw [hf, hd, List.zip_cons_cons, List.map_cons, List.filterMap_cons, lookup_featRow_grid]


/-- C1: for every input batch of at least 100 detections whose acquisition
date/time parse successfully, `train_model` fails before producing any
result: `prepare_features` returns only the twelve feature columns plus
`grid_id` (the datetime column is dropped), so `create_prediction_targets`
raises `KeyError('datetime')` when it sorts by the datetime column, and
neither the success record nor the `'Insufficient target data'` error
marker is ever returned. -/
theorem trainModel_crashes_on_datetime (h : Bool) {fires : List Detection}
    {dts : List Timestamp} (hlen : 100 ≤ fires.length)
    (hp : mapO dtOf fires = some dts) :
    trainModel h fires = .error (.keyErr "datetime")
  ∧ ∀ out : TrainOut, trainModel h fires ≠ .ok out := by
  refine ⟨trainModel_keyErr h hlen hp, ?_⟩
  intro out hc
  rw [trainModel_keyErr h hlen hp] at hc
  cases hc

unseal Rat.ofScientific Rat.mul Rat.inv Rat.add Rat.sub in
set_option maxRecDepth 100000 in
/-- Witness for C1 at a concrete batch of 100 identical detections. -/
theorem trainModel_crashes_on_datetime_witness :
    100 ≤ (List.replicate 100 dEx).length
  ∧ mapO dtOf (List.replicate 100 dEx) = some c1dts
  ∧ trainModel true (List.replicate 100 dEx) = .error (.keyErr "datetime") := by
  have h1 : 100 ≤ (List.replicate 100 dEx).length := by decide
  have h2 : mapO dtOf (List.replicate 100 dEx) = some c1dts := by decide
  exact ⟨h1, h2, (trainModel_crashes_on_datetime true h1 h2).1⟩

unseal Rat.ofScientific Rat.mul Rat.inv Rat.add Rat.sub in
set_option maxRecDepth 100000 in
/-- C2: `train` with exactly 99 detections fails with the InsufficientData
marker at the raw-count floor; `train` with 100 identical detections (same
grid cell, same timestamp) passes the raw-count floor but then raises
`KeyError('datetime')` inside `create_prediction_targets` instead of
returning the InsufficientData marker of the target stage — the
`'Insufficient target data'` return at line 112 of the source is
unreachable (code bug; the claimed marker is the evident intent). -/
theorem trainModel_insufficient_boundaries :
    trainModel true (List.replicate 99 dEx)
      = .ok (.errMarker "Insufficient data for training")
  ∧ trainModel true (List.replicate 100 dEx) = .error (.keyErr "datetime")
  ∧ ∀ out : TrainOut, trainModel true (List.replicate 100 dEx) ≠ .ok out := by
  have h1 : 100 ≤ (List.replicate 100 dEx).length := by decide
  have h2 : mapO dtOf (List.replicate 100 dEx) = some c1dts := by decide
  refine ⟨by decide, trainModel_keyErr true h1 h2, ?_⟩
  intro out hc
  rw [trainModel_keyErr true h1 h2] at hc
  cases hc


/-- C7: calling `predict_fire_probability` when no model is loaded in
memory and none exists in durable storage returns the structured
`'Model not trained'` error dictionary (no exception escapes: the missing
file is caught inside `load_model`). -/
theorem predict_model_not_trained (now : Timestamp) (st : ModelState)
    (lat lon : ℚ) (days : ℕ) (hm : st.model = none) :
    (predictFireProbability now none st lat lon days).1 = .err "Model not trained" := by
  obtain ⟨m, sc, fc, mv⟩ := st
  dsimp only at hm
  subst hm
  rfl

/-- Witness for C7 at the concrete untrained state `stNone`. -/
theorem predict_model_not_trained_witness :
    stNone.model = none
  ∧ (predictFireProbability tNow none stNone 0 0 7).1 = .err "Model not trained" :=
  ⟨rfl, predict_model_not_trained tNow stNone 0 0 7 rfl⟩

/-- C9: the probability and risk level that `predict_fire_probability`
returns do not depend on the `prediction_days` argument — two calls on the
same state, clock and coordinates that differ only in `prediction_days`
return identical `probability` and `risk_level` fields (and identical
error behaviour), with `prediction_days` merely echoed back in the
result. -/
theorem predict_days_independence (now : Timestamp) (disk : Option ModelState)
    (st : ModelState) (lat lon : ℚ) (d₁ d₂ : ℕ) :
    probOf ((predictFireProbability now disk st lat lon d₁).1)
      = probOf ((predictFireProbability now disk st lat lon d₂).1)
  ∧ riskOf ((predictFireProbability now disk st lat lon d₁).1)
      = riskOf ((predictFireProbability now disk st lat lon d₂).1)
  ∧ ∀ pr : Prediction, (predictFireProbability now disk st lat lon d₁).1 = .ok pr →
      pr.prediction_days = d₁ := by
  obtain ⟨m, sc, fc, mv⟩ := st
  cases m with
  | some fm =>
    refine ⟨rfl, rfl, ?_⟩
    intro pr hpr
    unfold predictFireProbability at hpr
    dsimp only at hpr
    injection hpr with h
    rw [← h]
  | none =>
    cases disk with
    | none =>
      refine ⟨rfl, rfl, ?_⟩
      intro pr hpr
      cases hpr
    | some b =>
      obtain ⟨bm, bsc, bfc, bmv⟩ := b
      cases bm with
      | none =>
        refine ⟨rfl, rfl, ?_⟩
        intro pr hpr
        cases hpr
      | some bfm =>
        refine ⟨rfl, rfl, ?_⟩
        intro pr hpr
        unfold predictFireProbability loadModel at hpr
        dsimp only at hpr
        injection hpr with h
        rw [← h]

unseal Rat.ofScientific Rat.mul Rat.inv Rat.add Rat.sub in
/-- Witness for C9 with a fitted state at days 3 versus 9. -/
theorem predict_days_independence_witness :
    probOf ((predictFireProbability tNow none stSome 0 0 3).1)
      = probOf ((predictFireProbability tNow none stSome 0 0 9).1)
  ∧ riskOf ((predictFireProbability tNow none stSome 0 0 3).1)
      = riskOf ((predictFireProbability tNow none stSome 0 0 9).1)
  ∧ prC9.prediction_days = 3 :=
  ⟨(predict_days_independence tNow none stSome 0 0 3 9).1,
   (predict_days_independence tNow none stSome 0 0 3 9).2.1,
   (predict_days_independence tNow none stSome 0 0 3 9).2.2 prC9 (by decide)⟩

/-- The body of the grid sweep only adds records with probability at
least 0.3. -/
theorem mem_gridStep {now : Timestamp} {disk : Option ModelState} {lat lon : ℚ}
    {acc : List GridRecord × ModelState} {rec : GridRecord}
    (hrec : rec ∈ (gridStep now disk lat lon acc).1) :
    rec ∈ acc.1 ∨ (0.3 : ℚ) ≤ rec.probability := by
  unfold gridStep at hrec
  dsimp only at hrec
  cases hres : (predictFireProbability now disk acc.2 lat lon 7).1 with
  | err m =>
    rw [hres] at hrec
    exact Or.inl hrec
  | ok p =>
    rw [hres] at hrec
    dsimp only at hrec
    by_cases hp : p.probability ≥ 0.3
    · rw [if_pos hp] at hrec
      dsimp only at hrec
      rcases List.mem_append.mp hrec with hl | hr
      · exact Or.inl hl
      · rcases List.mem_singleton.mp hr with rfl
        exact Or.inr hp
    · rw [if_neg hp] at hrec
      exact Or.inl hrec

/-- Inner-loop invariant of the grid sweep. -/
theorem mem_inner_fold {now : Timestamp} {disk : Option ModelState} {lat : ℚ}
    (lonPts : List ℚ) (acc : List GridRecord × ModelState) {rec : GridRecord}
    (hrec : rec ∈ (lonPts.foldl (fun acc2 lon => gridStep now disk lat lon acc2) acc).1) :
    rec ∈ acc.1 ∨ (0.3 : ℚ) ≤ rec.probability := by
  induction lonPts generalizing acc with
  | nil => exact Or.inl hrec
  | cons x xs ih =>
    rw [List.foldl_cons] at hrec
    rcases ih (gridStep now disk lat x acc) hrec with hl | hr
    · exact mem_gridStep hl
    · exact Or.inr hr

/-- Outer-loop invariant of the grid sweep. -/
theorem mem_outer_fold {now : Timestamp} {disk : Option ModelState}
    (latPts lonPts : List ℚ) (acc : List GridRecord × ModelState) {rec : GridRecord}
    (hrec : rec ∈ (latPts.foldl
      (fun acc lat => lonPts.foldl (fun acc2 lon => gridStep now disk lat lon acc2) acc)
      acc).1) :
    rec ∈ acc.1 ∨ (0.3 : ℚ) ≤ rec.probability := by
  induction latPts generalizing acc with
  | nil => exact Or.inl hrec
  | cons x xs ih =>
    rw [List.foldl_cons] at hrec
    rcases ih _ hrec with hl | hr
    · exact mem_inner_fold lonPts acc hl
    · exact Or.inr hr

/-- C8: every record in the sequence returned by
`generate_grid_predictions` has probability at least 0.3 — lattice points
whose predicted probability falls below 0.3 are filtered out. -/
theorem gridPredictions_min_probability (now : Timestamp) (disk : Option ModelState)
    (st : ModelState) (bounds : Bounds) (grid_size : ℚ) (rec : GridRecord)
    (hrec : rec ∈ (generateGridPredictions now disk st bounds grid_size).1) :
    (0.3 : ℚ) ≤ rec.probability := by
  unfold generateGridPredictions at hrec
  rcases mem_outer_fold _ _ _ hrec with hl | hr
  · cases hl
  · exact hr

unseal Rat.ofScientific Rat.mul Rat.inv Rat.add Rat.sub in
set_option maxRecDepth 20000 in
/-- Witness for C8: the one-point sweep under `stSome` returns exactly the
record `recC8`, whose probability 0.5 is at least 0.3. -/
theorem gridPredictions_min_probability_witness :
    recC8 ∈ (generateGridPredictions tNow none stSome bnds1 1).1
  ∧ (0.3 : ℚ) ≤ recC8.probability := by
  have hmem : recC8 ∈ (generateGridPredictions tNow none stSome bnds1 1).1 := by
    decide
  exact ⟨hmem, gridPredictions_min_probability tNow none stSome bnds1 1 recC8 hmem⟩

/-- With no model anywhere, one sweep step changes nothing. -/
theorem gridStep_no_model (now : Timestamp) (lat lon : ℚ)
    (acc : List GridRecord × ModelState) (hm : acc.2.model = none) :
    gridStep now none lat lon acc = acc := by
  obtain ⟨l, st⟩ := acc
  obtain ⟨m, sc, fc, mv⟩ := st
  dsimp only at hm
  subst hm
  rfl

/-- Inner loop preserves the no-model empty accumulator. -/
theorem inner_fold_no_model (now : Timestamp) (lonPts : List ℚ) (lat : ℚ)
    (acc : List GridRecord × ModelState) (hm : acc.2.model = none) :
    lonPts.foldl (fun acc2 lon => gridStep now none lat lon acc2) acc = acc := by
  induction lonPts generalizing acc with
  | nil => rfl
  | cons x xs ih =>
    rw [List.foldl_cons, gridStep_no_model now lat x acc hm]
    exact ih acc hm

/-- Outer loop preserves the no-model accumulator. -/
theorem outer_fold_no_model (now : Timestamp) (latPts lonPts : List ℚ)
    (acc : List GridRecord × ModelState) (hm : acc.2.model = none) :
    latPts.foldl
      (fun acc lat => lonPts.foldl (fun acc2 lon => gridStep now none lat lon acc2) acc)
      acc = acc := by
  induction latPts generalizing acc with
  | nil => rfl
  | cons x xs ih =>
    rw [List.foldl_cons, inner_fold_no_model now lonPts x acc hm]
    exact ih acc hm

/-- C10: when no model is loaded in memory and none exists in durable
storage, `generate_grid_predictions` returns the empty sequence rather
than an error marker: each per-point `'Model not trained'` error
dictionary is silently discarded by the `'error' not in pred` filter. -/
theorem gridPredictions_empty_without_model (now : Timestamp) (st : ModelState)
    (bounds : Bounds) (grid_size : ℚ) (hm : st.model = none) :
    (generateGridPredictions now none st bounds grid_size).1 = [] := by
  unfold generateGridPredictions
  rw [outer_fold_no_model now _ _ ([], st) hm]

/-- Witness for C10 at the concrete untrained state `stNone` over the
documented Northern-India bounding box. -/
theorem gridPredictions_empty_without_model_witness :
    stNone.model = none
  ∧ (generateGridPredictions tNow none stNone ⟨20, 32, 78, 88⟩ 1).1 = [] :=
  ⟨rfl, gridPredictions_empty_without_model tNow stNone ⟨20, 32, 78, 88⟩ 1 rfl⟩

theorem bind_ok {α β : Type} (a : α) (f : α → Except PyErr β) :
    ((Except.ok a : Except PyErr α) >>= f) = f a := rfl

theorem mapE_ok {α β : Type} {f : α → Except PyErr β} (gf : α → β) :
    ∀ {lst : List α}, (∀ a ∈ lst, f a = .ok (gf a)) → mapE f lst = .ok (lst.map gf) := by
  intro lst
  induction lst with
  | nil => intro _; rfl
  | cons a t ih =>
    intro h
    unfold mapE
    rw [h a (List.mem_cons_self a t), bind_ok, ih (fun b hb => h b (List.mem_cons_of_mem a hb)),
      bind_ok]
    rfl

theorem orderedIns_perm {α : Type} (le : α → α → Bool) (a : α) (s : List α) :
    (orderedIns le a s).Perm (a :: s) := by
  induction s with
  | nil => exact List.Perm.refl _
  | cons b t ih =>
    rw [orderedIns]
    by_cases hab : le a b
    · rw [if_pos hab]
    · rw [if_neg hab]
      exact List.Perm.trans (List.Perm.cons b ih) (List.Perm.swap a b t)

theorem insSort_perm {α : Type} (le : α → α → Bool) (s : List α) :
    (insSort le s).Perm s := by
  induction s with
  | nil => exact List.Perm.refl _
  | cons a t ih =>
    rw [insSort]
    exact List.Perm.trans (orderedIns_perm le a _) (List.Perm.cons a ih)

theorem mem_orderedIns {α : Type} {le : α → α → Bool} {a y : α} {s : List α} :
    y ∈ orderedIns le a s ↔ y = a ∨ y ∈ s := by
  rw [(orderedIns_perm le a s).mem_iff, List.mem_cons]

theorem orderedIns_pairwise {a : TRec} {s : List TRec}
    (hs : List.Pairwise (fun x y => x.t.abs ≤ y.t.abs) s) :
    List.Pairwise (fun x y => x.t.abs ≤ y.t.abs) (orderedIns tRecLe a s) := by
  induction s with
  | nil => simp [orderedIns]
  | cons b t ih =>
    rw [orderedIns]
    by_cases hab : tRecLe a b
    · rw [if_pos hab]
      have hab' : a.t.abs ≤ b.t.abs := of_decide_eq_true hab
      refine List.Pairwise.cons ?_ hs
      intro y hy
      rcases List.mem_cons.mp hy with rfl | hy
      · exact hab'
      · exact le_trans hab' (List.rel_of_pairwise_cons hs hy)
    · rw [if_neg hab]
      have hba : b.t.abs ≤ a.t.abs :=
        le_of_not_le (fun hc => hab (decide_eq_true hc))
      refine List.Pairwise.cons ?_ (ih (List.Pairwise.of_cons hs))
      intro y hy
      rcases mem_orderedIns.mp hy with rfl | hy
      · exact hba
      · exact List.rel_of_pairwise_cons hs hy

theorem insSort_pairwise (s : List TRec) :
    List.Pairwise (fun x y => x.t.abs ≤ y.t.abs) (insSort tRecLe s) := by
  induction s with
  | nil => simp [insSort]
  | cons a t ih =>
    rw [insSort]
    exact orderedIns_pairwise ih

theorem nodup_foldl_dedup {α : Type} [DecidableEq α] (l : List α) :
    ∀ {acc : List α}, acc.Nodup →
      (l.foldl (fun acc x => if x ∈ acc then acc else acc ++ [x]) acc).Nodup := by
  induction l with
  | nil => intro acc h; exact h
  | cons x xs ih =>
    intro acc h
    rw [List.foldl_cons]
    by_cases hx : x ∈ acc
    · rw [if_pos hx]
      exact ih h
    · rw [if_neg hx]
      refine ih ?_
      rw [List.nodup_append]
      exact ⟨h, List.nodup_singleton x, by simpa using fun hc => hx hc⟩

theorem nodup_uniqueFirst {α : Type} [DecidableEq α] (l : List α) :
    (uniqueFirst l).Nodup :=
  nodup_foldl_dedup l List.nodup_nil

theorem uniqueFirst_map_inj_aux {α β : Type} [DecidableEq α] [DecidableEq β]
    {f : α → β} (hf : Function.Injective f) (l : List α) :
    ∀ acc : List α,
      ((l.map f).foldl (fun acc x => if x ∈ acc then acc else acc ++ [x]) (acc.map f)) =
        (l.foldl (fun acc x => if x ∈ acc then acc else acc ++ [x]) acc).map f := by
  induction l with
  | nil => intro acc; rfl
  | cons x xs ih =>
    intro acc
    rw [List.map_cons, List.foldl_cons, List.foldl_cons]
    by_cases hx : x ∈ acc
    · rw [if_pos (List.mem_map_of_mem f hx), if_pos hx]
      exact ih acc
    · rw [if_neg (fun hc => hx ((List.mem_map_of_injective hf).mp hc)), if_neg hx]
      rw [show (acc.map f) ++ [f x] = (acc ++ [x]).map f by simp]
      exact ih (acc ++ [x])

theorem uniqueFirst_map_inj {α β : Type} [DecidableEq α] [DecidableEq β]
    {f : α → β} (hf : Function.Injective f) (l : List α) :
    uniqueFirst (l.map f) = (uniqueFirst l).map f := by
  unfold uniqueFirst
  exact uniqueFirst_map_inj_aux hf l []

theorem range_pred_map {α β : Type} (s : List α) (f : α → β) (c : β) :
    (List.range (s.length - 1)).map (fun i => ((s.get? i).map f).getD c)
      = s.dropLast.map f := by
  induction s with
  | nil => rfl
  | cons a t ih =>
    cases t with
    | nil => rfl
    | cons b u =>
      have hlen : (a :: b :: u : List α).length - 1 = ((b :: u : List α).length - 1) + 1 := by
        simp
      rw [hlen, List.range_succ_eq_map, List.map_cons, List.map_map]
      have hmc : ((List.range ((b :: u : List α).length - 1)).map
          ((fun i => (((a :: b :: u : List α).get? i).map f).getD c) ∘ Nat.succ)) =
          (List.range ((b :: u : List α).length - 1)).map (fun i =>
            (((b :: u : List α).get? i).map f).getD c) := rfl
      rw [hmc, ih]
      rfl

theorem getCol_tgtInput (l : List TRec) :
    (l.map toTRow).filterMap (fun r => lookupVal r "grid_id")
      = l.map (fun r => Val.vstr r.grid) := by
  induction l with
  | nil => rfl
  | cons a t ih =>
    rw [List.map_cons, List.filterMap_cons]
    show Val.vstr a.grid :: (t.map toTRow).filterMap (fun r => lookupVal r "grid_id") = _
    rw [ih, List.map_cons]

theorem filter_tgtInput (l : List TRec) (g : String) :
    ((l.map toTRow).filter (fun r => lookupVal r "grid_id" = some (.vstr g)))
      = (l.filter (fun r => r.grid = g)).map toTRow := by
  induction l with
  | nil => rfl
  | cons a t ih =>
    rw [List.map_cons, List.filter_cons, List.filter_cons]
    by_cases hg : a.grid = g
    · have h1 : (decide (lookupVal (toTRow a) "grid_id" = some (Val.vstr g))) = true := by
        simp [toTRow, lookupVal, hg]
      have h2 : (decide (a.grid = g)) = true := by simp [hg]
      rw [h1, h2, if_pos rfl, if_pos rfl, ih, List.map_cons]
    · have h1 : (decide (lookupVal (toTRow a) "grid_id" = some (Val.vstr g))) = false := by
        simp [toTRow, lookupVal, hg]
      have h2 : (decide (a.grid = g)) = false := by simp [hg]
      rw [h1, h2, if_neg (by simp), if_neg (by simp)]
      exact ih

theorem orderedIns_toTRow (a : TRec) (s : List TRec) :
    orderedIns (sortValsRow "datetime") (toTRow a) (s.map toTRow)
      = (orderedIns tRecLe a s).map toTRow := by
  induction s with
  | nil => rfl
  | cons b t ih =>
    rw [List.map_cons, orderedIns, orderedIns]
    have hc : sortValsRow "datetime" (toTRow a) (toTRow b) = tRecLe a b := rfl
    rw [hc]
    by_cases hab : tRecLe a b
    · rw [if_pos hab, if_pos hab, List.map_cons, List.map_cons]
    · rw [if_neg hab, if_neg hab, List.map_cons, ih]

theorem insSort_toTRow (s : List TRec) :
    insSort (sortValsRow "datetime") (s.map toTRow) = (insSort tRecLe s).map toTRow := by
  induction s with
  | nil => rfl
  | cons a t ih =>
    rw [List.map_cons, insSort, insSort, ih, orderedIns_toTRow]

theorem mapE_window_toTRow (s : List TRec) (lo hi : ℕ) :
    mapE (isInWindow lo hi) (s.map toTRow)
      = .ok (s.map (fun u => decide (lo < u.t.abs) && decide (u.t.abs ≤ hi))) := by
  induction s with
  | nil => rfl
  | cons a t ih =>
    rw [List.map_cons, List.map_cons]
    unfold mapE
    rw [show isInWindow lo hi (toTRow a)
      = .ok (decide (lo < a.t.abs) && decide (a.t.abs ≤ hi)) from rfl, bind_ok, ih, bind_ok]
    rfl

theorem count_window (s : List TRec) (p : TRec → Bool) :
    (s.map p).count true = s.countP p := by
  rw [List.count, List.countP_map]
  refine List.countP_congr ?_
  intro u _
  simp [Function.comp]

theorem countFutures_toTRow (s : List TRec) (lo hi : ℕ) :
    countFutures (s.map toTRow) lo hi
      = .ok (s.countP (fun u => decide (lo < u.t.abs) && decide (u.t.abs ≤ hi))) := by
  unfold countFutures
  rw [mapE_window_toTRow, bind_ok]
  show Except.ok ((s.map (fun u => decide (lo < u.t.abs) && decide (u.t.abs ≤ hi))).count true)
    = _
  rw [count_window]

theorem mkTarget_toTRow {s : List TRec} {w : ℕ} (hw : 0 < w) (g : String) {i : ℕ}
    (hi : i < s.length) :
    mkTarget (s.map toTRow) w (.vstr g) i =
      .ok (((s.get? i).map (fun r => targetRow g r.t
            (min ((s.countP (fun u =>
              decide (r.t.abs < u.t.abs) && decide (u.t.abs ≤ r.t.abs + w * 1440)) : ℚ)
              / (w : ℚ)) 1))).getD []) := by
  obtain ⟨r, hr⟩ : ∃ r, s.get? i = some r := by
    cases hg : s.get? i with
    | none => rw [List.get?_eq_none] at hg; omega
    | some r => exact ⟨r, rfl⟩
  unfold mkTarget getTimeAt
  rw [List.get?_map, hr]
  show ((Except.ok r.t : Except PyErr Timestamp) >>= _) = _
  rw [bind_ok]
  rw [countFutures_toTRow s r.t.abs (r.t.abs + w * 1440), bind_ok]
  unfold pyDivNat
  rw [if_neg (Nat.pos_iff_ne_zero.mp hw), bind_ok]
  rfl

theorem processCell_tgtInput (l : List TRec) {w : ℕ} (hw : 0 < w) (g : String) :
    processCell (tgtInput l) w (.vstr g) = .ok (cellLabelRows l g w) := by
  unfold processCell sortValues
  rw [show (tgtInput l).rows = l.map toTRow from rfl]
  rw [filter_tgtInput]
  dsimp only [tgtInput]
  rw [if_pos (show "datetime" ∈ ["grid_id", "datetime"] by decide), bind_ok]
  show mapE (mkTarget (insSort (sortValsRow "datetime")
      ((l.filter (fun r => r.grid = g)).map toTRow)) w (.vstr g))
    (List.range ((insSort (sortValsRow "datetime")
      ((l.filter (fun r => r.grid = g)).map toTRow)).length - 1)) = _
  rw [insSort_toTRow]
  unfold cellLabelRows cellSorted
  dsimp only
  set s := insSort tRecLe (l.filter (fun r => r.grid = g)) with hs
  rw [mapE_ok (fun i => ((s.get? i).map (fun r => targetRow g r.t
      (min ((s.countP (fun u =>
        decide (r.t.abs < u.t.abs) && decide (u.t.abs ≤ r.t.abs + w * 1440)) : ℚ)
        / (w : ℚ)) 1))).getD []) (fun i hi => ?_)]
  · rw [List.length_map, range_pred_map]
  · rw [List.length_map] at hi
    have hilt : i < s.length := by
      have hir := List.mem_range.mp hi
      omega
    exact mkTarget_toTRow hw g hilt

theorem vstr_injective : Function.Injective Val.vstr := by
  intro a b h
  injection h

theorem loopCells_strs (l : List TRec) {w : ℕ} (hw : 0 < w) (gs : List String) :
    loopCells (tgtInput l) w (gs.map Val.vstr)
      = .ok (gs.flatMap (fun g => cellLabelRows l g w)) := by
  induction gs with
  | nil => rfl
  | cons g t ih =>
    rw [List.map_cons]
    unfold loopCells
    rw [processCell_tgtInput l hw g, bind_ok, ih, bind_ok, List.flatMap_cons]
    rfl

theorem createTargets_tgtInput (l : List TRec) {w : ℕ} (hw : 0 < w) :
    createPredictionTargets (tgtInput l) w = .ok (targetOutput l w) := by
  unfold createPredictionTargets getColumnVals
  have hmem : "grid_id" ∈ (tgtInput l).cols := by
    show "grid_id" ∈ ["grid_id", "datetime"]
    decide
  rw [if_pos hmem]
  rw [show (tgtInput l).rows = l.map toTRow from rfl, getCol_tgtInput, bind_ok]
  have hmm : (l.map (fun r => Val.vstr r.grid)) = (l.map (fun r => r.grid)).map Val.vstr := by
    rw [List.map_map]
    rfl
  rw [hmm, uniqueFirst_map_inj vstr_injective, loopCells_strs l hw, bind_ok]
  rfl

theorem targetRow_inj {g g' : String} {c c' : Timestamp} {q q' : ℚ}
    (h : targetRow g c q = targetRow g' c' q') : g = g' ∧ c = c' ∧ q = q' := by
  simp only [targetRow, targetRowV, List.cons.injEq, Prod.mk.injEq, Val.vstr.injEq,
    Val.vtime.injEq, Val.vfloat.injEq, PFloat.fin.injEq, and_true, true_and] at h
  exact ⟨h.1, h.2.1, h.2.2⟩

theorem mem_targetRowsOf {l : List TRec} {w : ℕ} {row : Row}
    (hrow : row ∈ targetRowsOf l w) :
    ∃ g r, g ∈ uniqueFirst (l.map (fun x => x.grid)) ∧ r ∈ (cellSorted l g).dropLast ∧
      row = targetRow g r.t (min (((cellSorted l g).countP (fun u =>
        decide (r.t.abs < u.t.abs) && decide (u.t.abs ≤ r.t.abs + w * 1440)) : ℚ)
        / (w : ℚ)) 1) := by
  unfold targetRowsOf at hrow
  obtain ⟨g, hg, hrow⟩ := List.mem_flatMap.mp hrow
  unfold cellLabelRows at hrow
  obtain ⟨r, hr, hrq⟩ := List.mem_map.mp hrow
  exact ⟨g, r, hg, hr, hrq.symm⟩

theorem cell_count_eq (l : List TRec) (g : String) (cur : Timestamp) (w : ℕ) :
    (cellSorted l g).countP (fun u =>
      decide (cur.abs < u.t.abs) && decide (u.t.abs ≤ cur.abs + w * 1440))
      = claimFutureCount l g cur w := by
  unfold cellSorted claimFutureCount
  rw [(insSort_perm tRecLe _).countP_eq]
  rw [List.countP_filter]
  refine List.countP_congr ?_
  intro r _
  cases h1 : decide (r.grid = g) <;> cases h2 : decide (cur.abs < r.t.abs) <;>
    cases h3 : decide (r.t.abs ≤ cur.abs + w * 1440) <;> rfl

theorem claimLabel_mem01 (l : List TRec) (g : String) (cur : Timestamp) {w : ℕ}
    (hw : 0 < w) : 0 ≤ claimLabel l g cur w ∧ claimLabel l g cur w ≤ 1 := by
  unfold claimLabel
  refine ⟨le_min (div_nonneg (Nat.cast_nonneg _) (Nat.cast_nonneg _)) (by norm_num),
    min_le_right _ _⟩

theorem lookup_targetRow_grid (g : String) (cur : Timestamp) (q : ℚ) :
    lookupVal (targetRow g cur q) "grid_id" = some (.vstr g) := rfl

theorem filter_cellLabelRows (l : List TRec) (w : ℕ) (g g' : String) :
    (cellLabelRows l g' w).filter (fun row => lookupVal row "grid_id" = some (.vstr g))
      = if g' = g then cellLabelRows l g w else [] := by
  by_cases hg : g' = g
  · subst hg
    rw [if_pos rfl]
    apply List.filter_eq_self.mpr
    intro row hrow
    obtain ⟨r, _, hrq⟩ := List.mem_map.mp hrow
    rw [← hrq]
    simp [lookup_targetRow_grid]
  · rw [if_neg hg]
    rw [List.filter_eq_nil]
    intro row hrow
    obtain ⟨r, _, hrq⟩ := List.mem_map.mp hrow
    rw [← hrq]
    simp [lookup_targetRow_grid, hg]

theorem filter_flatMap_cell (l : List TRec) (w : ℕ) (g : String) :
    ∀ (gs : List String), gs.Nodup →
      ((gs.flatMap (fun g' => cellLabelRows l g' w)).filter
        (fun row => lookupVal row "grid_id" = some (.vstr g)))
        = if g ∈ gs then cellLabelRows l g w else [] := by
  intro gs
  induction gs with
  | nil => intro _; simp
  | cons a t ih =>
    intro hnd
    rw [List.flatMap_cons, List.filter_append, filter_cellLabelRows, ih hnd.of_cons]
    by_cases hag : a = g
    · subst hag
      rw [if_pos rfl, if_pos (List.mem_cons_self a t)]
      rw [if_neg (fun hc => (List.nodup_cons.mp hnd).1 hc), List.append_nil]
    · rw [if_neg hag, List.nil_append]
      by_cases hgt : g ∈ t
      · rw [if_pos hgt, if_pos (List.mem_cons_of_mem a hgt)]
      · rw [if_neg hgt, if_neg (fun hc => by
          rcases List.mem_cons.mp hc with hc1 | hc2
          · exact hag hc1.symm
          · exact hgt hc2)]

theorem length_cellLabelRows (l : List TRec) (g : String) (w : ℕ) :
    (cellLabelRows l g w).length = l.countP (fun r => r.grid = g) - 1 := by
  unfold cellLabelRows
  rw [List.length_map, List.length_dropLast]
  unfold cellSorted
  rw [(insSort_perm tRecLe _).length_eq, ← List.countP_eq_length_filter]

theorem chain_cellLabelRows (l : List TRec) (g : String) (w : ℕ) :
    List.Chain' (fun a b => rowTimeKey a ≤ rowTimeKey b) (cellLabelRows l g w) := by
  unfold cellLabelRows
  rw [List.chain'_map]
  have hp : List.Pairwise (fun x y : TRec => x.t.abs ≤ y.t.abs) (cellSorted l g).dropLast :=
    (insSort_pairwise _).sublist (List.dropLast_sublist _)
  exact hp.chain'

/-- C3: on a well-typed input frame, for every grid cell the target
builder emits one label per record in time order except the last; every
emitted row is a target record; the label of each record equals
`min(count / window_days, 1.0)` where `count` is the number of same-cell
records whose timestamp is strictly after the current record's and at most
`window_days` days later, hence every label lies in `[0,1]`; a cell with
fewer than 2 records contributes no labels; and each cell's emitted
records are in nondecreasing time order. -/
theorem createPredictionTargets_spec (l : List TRec) (w : ℕ) (hw : 0 < w) :
    createPredictionTargets (tgtInput l) w = .ok (targetOutput l w)
  ∧ (∀ row ∈ (targetOutput l w).rows, ∃ g cur q, row = targetRow g cur q)
  ∧ (∀ g cur q, targetRow g cur q ∈ (targetOutput l w).rows →
      q = claimLabel l g cur w ∧ 0 ≤ q ∧ q ≤ 1)
  ∧ (∀ g : String, ((targetOutput l w).rows.filter
        (fun row => lookupVal row "grid_id" = some (.vstr g))).length
      = l.countP (fun r => r.grid = g) - 1)
  ∧ (∀ g : String, l.countP (fun r => r.grid = g) < 2 →
      (targetOutput l w).rows.filter
        (fun row => lookupVal row "grid_id" = some (.vstr g)) = [])
  ∧ (∀ g : String, List.Chain' (fun a b => rowTimeKey a ≤ rowTimeKey b)
      ((targetOutput l w).rows.filter
        (fun row => lookupVal row "grid_id" = some (.vstr g)))) := by
  have hrows : (targetOutput l w).rows = targetRowsOf l w := rfl
  have hfilter : ∀ g : String, ((targetOutput l w).rows.filter
      (fun row => lookupVal row "grid_id" = some (.vstr g)))
      = if g ∈ uniqueFirst (l.map (fun x => x.grid)) then cellLabelRows l g w else [] := by
    intro g
    rw [hrows]
    unfold targetRowsOf
    exact filter_flatMap_cell l w g _ (nodup_uniqueFirst _)
  have hcount0 : ∀ g : String, g ∉ uniqueFirst (l.map (fun x => x.grid)) →
      l.countP (fun r => r.grid = g) = 0 := by
    intro g hg
    refine List.countP_eq_zero.mpr ?_
    intro r hr hrg
    exact hg ((mem_uniqueFirst _ _).mpr
      (List.mem_map.mpr ⟨r, hr, of_decide_eq_true hrg⟩))
  have hlen : ∀ g : String, ((targetOutput l w).rows.filter
      (fun row => lookupVal row "grid_id" = some (.vstr g))).length
      = l.countP (fun r => r.grid = g) - 1 := by
    intro g
    rw [hfilter g]
    by_cases hg : g ∈ uniqueFirst (l.map (fun x => x.grid))
    · rw [if_pos hg, length_cellLabelRows]
    · rw [if_neg hg, hcount0 g hg]
      rfl
  refine ⟨createTargets_tgtInput l hw, ?_, ?_, hlen, ?_, ?_⟩
  · intro row hrow
    rw [hrows] at hrow
    obtain ⟨g, r, _, _, hrq⟩ := mem_targetRowsOf hrow
    exact ⟨g, r.t, _, hrq⟩
  · intro g cur q hmemrow
    rw [hrows] at hmemrow
    obtain ⟨g', r, _, _, hrq⟩ := mem_targetRowsOf hmemrow
    obtain ⟨hgg, hcc, hqq⟩ := targetRow_inj hrq
    subst hgg
    subst hcc
    have hq : q = claimLabel l g r.t w := by
      rw [hqq]
      unfold claimLabel
      rw [cell_count_eq]
    refine ⟨hq, ?_, ?_⟩
    · rw [hq]
      exact (claimLabel_mem01 l g r.t hw).1
    · rw [hq]
      exact (claimLabel_mem01 l g r.t hw).2
  · intro g hg2
    refine List.length_eq_zero.mp ?_
    rw [hlen g]
    omega
  · intro g
    rw [hfilter g]
    by_cases hg : g ∈ uniqueFirst (l.map (fun x => x.grid))
    · rw [if_pos hg]
      exact chain_cellLabelRows l g w
    · rw [if_neg hg]
      exact List.chain'_nil


unseal Rat.ofScientific Rat.mul Rat.inv Rat.add Rat.sub in
set_option maxRecDepth 20000 in
/-- Witness for C3 on the demo input `c3l` at window 7: the target builder
succeeds, cell `a` with two records emits one label, and the emitted label
`1/7` equals the claimed `min(count / window, 1)` value and lies in
`[0,1]`. -/
theorem createPredictionTargets_spec_witness :
    0 < 7
  ∧ createPredictionTargets (tgtInput c3l) 7 = .ok (targetOutput c3l 7)
  ∧ ((targetOutput c3l 7).rows.filter
      (fun row => lookupVal row "grid_id" = some (.vstr "a"))).length
      = c3l.countP (fun r => r.grid = "a") - 1
  ∧ ((1 : ℚ)/7 = claimLabel c3l "a" (mkTimestamp 2023 11 1 0 0) 7
      ∧ 0 ≤ (1 : ℚ)/7 ∧ (1 : ℚ)/7 ≤ 1) := by
  refine ⟨by decide, (createPredictionTargets_spec c3l 7 (by decide)).1,
    (createPredictionTargets_spec c3l 7 (by decide)).2.2.2.1 "a",
    (createPredictionTargets_spec c3l 7 (by decide)).2.2.1 "a"
      (mkTimestamp 2023 11 1 0 0) (1/7) ?_⟩
  decide

end FirePred
